import Mathlib

/-!
Shallow embedding of the analytics core of the Indian Tech Job Market
Intelligence Platform (`src/analytics.py`), together with proofs settling
the frozen claims about it.

Modelling conventions:
* a pandas `DataFrame` is a column-name list plus a list of rows, each row
  an association list from column name to a dynamically typed `Value`;
* numerics are `ℚ` (the float arithmetic in scope is exact on the data the
  spec discusses), timestamps are `Int` epoch seconds, calendar dates are
  `Int` day numbers obtained by floor division by 86400;
* `pd.to_datetime(..., errors='coerce')` is a total parse returning
  `Option Int` (`none` = `NaT`); the string-parsing part is an explicit
  function parameter, mirroring the external pandas parser;
* the external `normalize_location` from `src.data_loader` is an explicit
  function parameter;
* a raised-and-caught Python exception is `Except String`; the `try/except`
  policy of each aggregator is the explicit combinator `swallow` (log and
  return the empty result) or `reraise` (wrap in `CustomException`);
* aggregators that assign a column into the caller's frame are functions
  returning the pair (caller's frame after the call, result).
-/

/-- A dynamically typed cell of the tabular dataset. -/
inductive Value where
  /-- a Python string cell -/
  | vstr (s : String) : Value
  /-- a numeric cell (int or float, modelled exactly) -/
  | vnum (q : ℚ) : Value
  /-- a datetime cell: `some t` an epoch-seconds timestamp, `none` is `NaT` -/
  | vdate (t : Option Int) : Value
  /-- a missing value (`NaN` / `None`) -/
  | vnone : Value
deriving DecidableEq, Repr

/-- A row of the dataset: an association list from column name to cell. -/
abbrev Row := List (String × Value)

/-- A pandas DataFrame: its column names and its rows. -/
structure DataFrame where
  cols : List String
  rows : List Row
deriving DecidableEq, Repr

/-- The check `df.empty`: true when the frame has no rows or no columns. -/
def DataFrame.isEmpty (df : DataFrame) : Bool :=
  df.rows.isEmpty || df.cols.isEmpty

/-- The check `col in df.columns`. -/
def DataFrame.hasCol (df : DataFrame) (c : String) : Bool :=
  df.cols.contains c

/-- The cell of row `r` in column `c`, `NaN` when the key is absent. -/
def cellOf (r : Row) (c : String) : Value :=
  (r.lookup c).getD Value.vnone

/-- Column access `df[c]`: a `KeyError` when the column is absent. -/
def colVals (df : DataFrame) (c : String) : Except String (List Value) :=
  if df.hasCol c then Except.ok (df.rows.map (fun r => cellOf r c))
  else Except.error ("KeyError: " ++ c)

/-- Dictionary / column-cell update: replace the value at key `k` keeping
its position, or append the binding when the key is new (Python dict and
pandas column-assignment semantics). -/
def setAssoc {α β : Type} [BEq α] (l : List (α × β)) (k : α) (v : β) :
    List (α × β) :=
  match l with
  | [] => [(k, v)]
  | (a, b) :: rest => if a == k then (a, v) :: rest else (a, b) :: setAssoc rest k v

/-- A `skill_counts.get(skill, 0) + 1` style dictionary bump: increment the
count at key `k` in place, or append `(k, 1)` when the key is new. -/
def bump {α : Type} [BEq α] (l : List (α × Nat)) (k : α) : List (α × Nat) :=
  match l with
  | [] => [(k, 1)]
  | (a, c) :: rest => if a == k then (a, c + 1) :: rest else (a, c) :: bump rest k

/-- Count the occurrences of each element, keys in first-encounter order
(the insertion order of a Python dict / pandas hash table). -/
def countOccs {α : Type} [BEq α] (l : List α) : List (α × Nat) :=
  l.foldl bump []

/-- Stable insertion of `x` into `l`: `x` passes over exactly the elements
`y` that `keep` says must stay before it. -/
def insertStable {α : Type} (keep : α → α → Bool) (x : α) : List α → List α
  | [] => [x]
  | y :: ys => if keep y x then y :: insertStable keep x ys else x :: y :: ys

/-- Stable insertion sort: an earlier element precedes a later one unless
`keep later earlier` holds strictly. -/
def stableSortBy {α : Type} (keep : α → α → Bool) : List α → List α
  | [] => []
  | x :: xs => insertStable keep x (stableSortBy keep xs)

/-- First occurrence of each element, in order of first appearance. -/
def firstOccsAux {α : Type} [BEq α] (seen : List α) : List α → List α
  | [] => []
  | x :: xs =>
    if seen.contains x then firstOccsAux seen xs
    else x :: firstOccsAux (x :: seen) xs

/-- The distinct elements of a list in first-encounter order. -/
def firstOccs {α : Type} [BEq α] (l : List α) : List α :=
  firstOccsAux [] l

/-- Sum of a list of rationals. -/
def ratSum (l : List ℚ) : ℚ := l.foldr (fun a b => a + b) 0

/-- Arithmetic mean of a list of rationals (0 on the empty list; every use
site guards against emptiness as the source does). -/
def ratMean (l : List ℚ) : ℚ := ratSum l / (l.length : ℚ)

/-- Minimum of a nonempty list of rationals (0 on the empty list). -/
def listMin : List ℚ → ℚ
  | [] => 0
  | x :: xs => xs.foldl min x

/-- Maximum of a nonempty list of rationals (0 on the empty list). -/
def listMax : List ℚ → ℚ
  | [] => 0
  | x :: xs => xs.foldl max x

/-- The pandas/NumPy median: middle element of the ascending sort, or the
mean of the two middle elements for an even length. -/
def median (l : List ℚ) : ℚ :=
  let s := stableSortBy (fun y x => decide (y < x)) l
  let n := s.length
  if n = 0 then 0
  else if n % 2 = 1 then s.getD (n / 2) 0
  else (s.getD (n / 2 - 1) 0 + s.getD (n / 2) 0) / 2

/-- Floor of a rational, computed from its reduced fraction. -/
def ratFloor (q : ℚ) : ℤ := q.num.fdiv (q.den : ℤ)

/-- Ceiling of a rational. -/
def ratCeil (q : ℚ) : ℤ := -ratFloor (-q)

/-- NumPy `round` to zero decimals: round half to even. -/
def roundHalfEven (q : ℚ) : ℤ :=
  let f : ℤ := ratFloor q
  let r : ℚ := q - (f : ℚ)
  if r < 1 / 2 then f
  else if 1 / 2 < r then f + 1
  else if f % 2 = 0 then f else f + 1

/-- Python `int(...)` on a float: truncation toward zero. -/
def intTrunc (q : ℚ) : ℤ :=
  if 0 ≤ q then ratFloor q else ratCeil q

/-- Calendar day of an epoch-seconds timestamp: floor division by 86400
(the `.date()` / `.dt.date` extraction, all timestamps in one timezone). -/
def dateOf (t : Int) : Int := t / 86400

/-- The typed failure `CustomException(e, sys)` raised by the salary-trend
aggregator. -/
structure CustomException where
  msg : String
deriving DecidableEq, Repr

/-- An `except Exception: logging.error(...); return empty` block: any
fault is swallowed and the empty result `d` returned. -/
def swallow {α : Type} (d : α) (r : Except String α) : α :=
  match r with
  | Except.ok v => v
  | Except.error _ => d

/-- An `except Exception as e: raise CustomException(e, sys)` block: any
fault is wrapped in the typed `CustomException` and re-raised. -/
def reraise {α : Type} (r : Except String α) : Except CustomException α :=
  match r with
  | Except.ok v => Except.ok v
  | Except.error e => Except.error ⟨e⟩

/-! ## Python string primitives, as structurally recursive char-list
functions (the data in scope is ASCII, on which these agree with Python's
`str.lower`, `str.strip`, `str.split` and `in`) -/

/-- Python `str.lower()`. -/
def pyLower (s : String) : String := String.mk (s.data.map Char.toLower)

/-- Python `str.strip()`: drop leading and trailing whitespace. -/
def pyTrim (l : List Char) : List Char :=
  ((l.dropWhile Char.isWhitespace).reverse.dropWhile Char.isWhitespace).reverse

/-- Python `str.strip()` on a string. -/
def pyStrip (s : String) : String := String.mk (pyTrim s.data)

/-- Split a char list at every occurrence of `sep` (Python `str.split(sep)`
semantics: n separators yield n+1 parts, empties kept). -/
def splitChar (sep : Char) : List Char → List (List Char)
  | [] => [[]]
  | c :: cs =>
    if c = sep then [] :: splitChar sep cs
    else
      match splitChar sep cs with
      | [] => [[c]]
      | g :: gs => (c :: g) :: gs

/-- Python `s.split(sep)` for a one-char separator. -/
def pySplit (sep : Char) (s : String) : List String :=
  (splitChar sep s.data).map String.mk

/-- Does `pat` occur as a prefix of `s`? -/
def startsWith : List Char → List Char → Bool
  | [], _ => true
  | _ :: _, [] => false
  | p :: ps, c :: cs => p == c && startsWith ps cs

/-- Does `pat` occur as a contiguous sublist of `s`? -/
def containsSubList (pat : List Char) : List Char → Bool
  | [] => pat.isEmpty
  | c :: cs => startsWith pat (c :: cs) || containsSubList pat cs

/-! ## Location filter (`filter_jobs_by_location`, analytics.py lines 14-36) -/

/-- The string handed to `normalize_location` by `row.get('location', '')`:
the location cell when it is a string, `''` otherwise. -/
def locString (r : Row) : String :=
  match r.lookup "location" with
  | some (Value.vstr s) => s
  | _ => ""

/-- The per-record match test of the source: the record's location is
normalized and lower-cased and compared against the already lower-cased
request (the request itself is **not** normalized), or against `"remote"`. -/
def locMatches (normalize : String → String) (location_lower : String)
    (r : Row) : Bool :=
  let normalized := pyLower (normalize (locString r))
  normalized == location_lower || normalized == "remote"

/-- `filter_jobs_by_location(jobs_df, location)`: pass the frame through on
an empty or `'All'` request; otherwise keep the matching rows in order, and
return a fresh empty frame (no columns) when nothing matches. -/
def filter_jobs_by_location (normalize : String → String) (jobs_df : DataFrame)
    (location : String) : DataFrame :=
  if location == "" || location == "All" then jobs_df
  else
    let location_lower := pyLower location
    let filtered := jobs_df.rows.filter (locMatches normalize location_lower)
    if filtered.isEmpty then ⟨[], []⟩ else ⟨jobs_df.cols, filtered⟩

/-- Modelled from the spec's words, for comparison with the source: the
variant of the filter in which the requested string is itself passed
through the normalizer before lower-casing (spec section 4.1). -/
def filter_jobs_by_location_specVariant (normalize : String → String)
    (jobs_df : DataFrame) (location : String) : DataFrame :=
  if location == "" || location == "All" then jobs_df
  else
    let location_lower := pyLower (normalize location)
    let filtered := jobs_df.rows.filter (locMatches normalize location_lower)
    if filtered.isEmpty then ⟨[], []⟩ else ⟨jobs_df.cols, filtered⟩

/-! ## Role classifier (`extract_role`, analytics.py lines 288-311) -/

/-- Substring containment test, Python's `pat in s`. -/
def containsSub (s pat : String) : Bool :=
  containsSubList pat.data s.data

/-- Python `str(...)` as applied to a title cell before classification;
non-string cells all classify as "Other" either way, so their rendering is
collapsed to `""`. -/
def pyStr (v : Value) : String :=
  match v with
  | Value.vstr s => s
  | _ => ""

/-- `extract_role(title)`: lower-case the title and run the fixed `if/elif`
chain of substring tests, falling back to `'Other'`. -/
def extract_role (title : String) : String :=
  let title_lower := pyLower title
  if containsSub title_lower "data scientist" then "Data Scientist"
  else if containsSub title_lower "data engineer" then "Data Engineer"
  else if containsSub title_lower "data analyst" then "Data Analyst"
  else if containsSub title_lower "full stack" then "Full Stack Developer"
  else if containsSub title_lower "frontend" || containsSub title_lower "front end" then "Frontend Developer"
  else if containsSub title_lower "backend" || containsSub title_lower "back end" then "Backend Developer"
  else if containsSub title_lower "devops" then "DevOps Engineer"
  else if containsSub title_lower "machine learning" || containsSub title_lower "ml engineer" then "ML Engineer"
  else if containsSub title_lower "software engineer" || containsSub title_lower "software developer" then "Software Engineer"
  else if containsSub title_lower "qa" || containsSub title_lower "test" then "QA Engineer"
  else "Other"

/-- The classifier's rule table as an explicit ordered priority list: each
rule is a set of lower-case patterns and the label it yields. -/
def roleRules : List (List String × String) :=
  [ (["data scientist"], "Data Scientist"),
    (["data engineer"], "Data Engineer"),
    (["data analyst"], "Data Analyst"),
    (["full stack"], "Full Stack Developer"),
    (["frontend", "front end"], "Frontend Developer"),
    (["backend", "back end"], "Backend Developer"),
    (["devops"], "DevOps Engineer"),
    (["machine learning", "ml engineer"], "ML Engineer"),
    (["software engineer", "software developer"], "Software Engineer"),
    (["qa", "test"], "QA Engineer") ]

/-- First-match evaluation of an ordered rule list over a lower-cased
title, with fallback label `'Other'`. -/
def applyRules (rules : List (List String × String)) (title_lower : String) :
    String :=
  match rules with
  | [] => "Other"
  | (pats, label) :: rest =>
    if pats.any (fun p => containsSub title_lower p) then label
    else applyRules rest title_lower

/-! ## Salary trend aggregator (`calculate_salary_trends`, lines 39-82) -/

/-- Does the cell hold a number strictly greater than zero (the comparison
`jobs_df[c] > 0` is false on `NaN`)? -/
def numGt0 (v : Value) : Bool :=
  match v with
  | Value.vnum q => decide (0 < q)
  | _ => false

/-- The row mask `(jobs_df['salary_min'] > 0) & (jobs_df['salary_max'] > 0)`. -/
def validSalary (r : Row) : Bool :=
  numGt0 (cellOf r "salary_min") && numGt0 (cellOf r "salary_max")

/-- Numeric reading of a cell for arithmetic (use sites are guarded so the
cell is numeric). -/
def numOf (r : Row) (c : String) : ℚ :=
  match cellOf r c with
  | Value.vnum q => q
  | _ => 0

/-- The derived column `avg_salary = (salary_min + salary_max) / 2`. -/
def avg_salary (r : Row) : ℚ :=
  (numOf r "salary_min" + numOf r "salary_max") / 2

/-- The grouping cell of a row for `groupby(group_by)`. -/
def keyOf (group_by : String) (r : Row) : Value :=
  cellOf r group_by

/-- An arbitrary strict linear order on cells, used only for the ascending
group-key order of `groupby(sort=True)`; within one well-typed key column
it is the natural string or numeric order. -/
def valueLt (a b : Value) : Bool :=
  match a, b with
  | Value.vnone, Value.vnone => false
  | Value.vnone, _ => true
  | _, Value.vnone => false
  | Value.vnum p, Value.vnum q => decide (p < q)
  | Value.vnum _, Value.vstr _ => true
  | Value.vnum _, Value.vdate _ => true
  | Value.vstr s, Value.vstr t => decide (s < t)
  | Value.vstr _, Value.vdate _ => true
  | Value.vstr _, Value.vnum _ => false
  | Value.vdate none, Value.vdate none => false
  | Value.vdate none, Value.vdate (some _) => true
  | Value.vdate (some _), Value.vdate none => false
  | Value.vdate (some t), Value.vdate (some t') => decide (t < t')
  | Value.vdate _, _ => false

/-- The group keys of `groupby`: null keys dropped, one key per distinct
value, sorted ascending. -/
def groupKeys (keys : List Value) : List Value :=
  stableSortBy (fun y x => valueLt y x)
    ((firstOccs keys).filter (fun k => !(k == Value.vnone)))

/-- One output row of the salary-trend aggregation, the columns renamed at
line 73: group key, Average Salary (mean), Typical Salary (median), Lowest
Salary (min), Highest Salary (max), Number of Jobs (count), the four
statistics of the midpoint column rounded by `.round(0)`. -/
structure SalaryStat where
  key : Value
  mean : ℤ
  typical : ℤ
  lowest : ℤ
  highest : ℤ
  count : ℕ
deriving DecidableEq, Repr

/-- Aggregate the midpoints `ms` of one group into its output row. -/
def mkSalaryStat (k : Value) (ms : List ℚ) : SalaryStat :=
  ⟨k, roundHalfEven (ratMean ms), roundHalfEven (median ms),
    roundHalfEven (listMin ms), roundHalfEven (listMax ms), ms.length⟩

/-- The midpoints of the rows of `rows` whose grouping cell equals `k`. -/
def midpointsOfRows (rows : List Row) (group_by : String) (k : Value) :
    List ℚ :=
  (rows.filter (fun r => keyOf group_by r == k)).map avg_salary

/-- The `try:` body of `calculate_salary_trends(jobs_df, group_by)`: the
mask `(jobs_df['salary_min'] > 0) & (jobs_df['salary_max'] > 0)` accesses
`salary_max` without a presence check (a `KeyError` when it is absent; the
`salary_min` access is covered by the precondition test), and
`groupby(group_by)` likewise faults when the grouping column is absent. -/
def calculate_salary_trends_body (jobs_df : DataFrame) (group_by : String) :
    Except String (List SalaryStat) :=
  if jobs_df.isEmpty || !jobs_df.hasCol "salary_min" then Except.ok []
  else
    match colVals jobs_df "salary_max" with
    | Except.error e => Except.error e
    | Except.ok _ =>
      let valid_salaries := jobs_df.rows.filter validSalary
      if valid_salaries.isEmpty then Except.ok []
      else
        match colVals ⟨jobs_df.cols, valid_salaries⟩ group_by with
        | Except.error e => Except.error e
        | Except.ok _ =>
          let ks := groupKeys (valid_salaries.map (keyOf group_by))
          Except.ok (stableSortBy (fun y x => decide (x.mean < y.mean))
            (ks.map (fun k =>
              mkSalaryStat k (midpointsOfRows valid_salaries group_by k))))

/-- `calculate_salary_trends`: the one aggregator whose faults are wrapped
in `CustomException` and re-raised (lines 80-82). -/
def calculate_salary_trends (jobs_df : DataFrame) (group_by : String) :
    Except CustomException (List SalaryStat) :=
  reraise (calculate_salary_trends_body jobs_df group_by)

/-! ## Skill demand aggregator (`get_top_skills`, lines 85-123) -/

/-- The skill tokens a row contributes: `dropna` skips missing cells, the
`isinstance(skills_str, str)` guard skips non-strings, and a string is
split on commas, each token stripped, empty tokens dropped. -/
def skillTokens (r : Row) : List String :=
  match cellOf r "skills" with
  | Value.vstr s => ((pySplit (Char.ofNat 44) s).map pyStrip).filter (fun t => !(t == ""))
  | _ => []

/-- Every skill token of the dataset, in row order. -/
def allSkillTokens (jobs_df : DataFrame) : List String :=
  jobs_df.rows.flatMap skillTokens

/-- The `skill_counts` dictionary accumulated over the dataset. -/
def skillCounts (jobs_df : DataFrame) : List (String × ℕ) :=
  countOccs (allSkillTokens jobs_df)

/-- Descending sort of `(key, count)` pairs by count, for
`sort_values('count', ascending=False)` and the sort inside
`value_counts()`. The pandas call uses its default unstable quicksort,
whose order among equal counts is unspecified; this model resolves ties
to prior (first-encounter) order, one admissible outcome, and no theorem
below depends on the order chosen among equal counts. -/
def sortCountDesc {α : Type} (l : List (α × ℕ)) : List (α × ℕ) :=
  stableSortBy (fun y x => decide (x.2 < y.2)) l

/-- The `try:` body of `get_top_skills(jobs_df, top_n)`. -/
def get_top_skills_body (jobs_df : DataFrame) (top_n : ℕ) :
    Except String (List (String × ℕ)) :=
  if jobs_df.isEmpty || !jobs_df.hasCol "skills" then Except.ok []
  else Except.ok ((sortCountDesc (skillCounts jobs_df)).take top_n)

/-- `get_top_skills`: faults are swallowed into an empty result. -/
def get_top_skills (jobs_df : DataFrame) (top_n : ℕ) : List (String × ℕ) :=
  swallow [] (get_top_skills_body jobs_df top_n)

/-! ## Company ranking aggregator (`get_top_companies`, lines 126-153) -/

/-- `series.value_counts().head(n)`: drop missing values, count each
distinct value, sort descending by count, keep the first `n`. -/
def valueCountsHead (vals : List Value) (n : ℕ) : List (Value × ℕ) :=
  (sortCountDesc (countOccs (vals.filter (fun v => !(v == Value.vnone))))).take n

/-- The `try:` body of `get_top_companies(jobs_df, top_n)`. -/
def get_top_companies_body (jobs_df : DataFrame) (top_n : ℕ) :
    Except String (List (Value × ℕ)) :=
  if jobs_df.isEmpty || !jobs_df.hasCol "company" then Except.ok []
  else Except.ok (valueCountsHead (jobs_df.rows.map (fun r => cellOf r "company")) top_n)

/-- `get_top_companies`: faults are swallowed into an empty result. -/
def get_top_companies (jobs_df : DataFrame) (top_n : ℕ) : List (Value × ℕ) :=
  swallow [] (get_top_companies_body jobs_df top_n)

/-! ## Location stats aggregator (`calculate_location_stats`, lines 156-189) -/

/-- One output row of the location aggregation: job count and the rounded
means of raw `salary_min` / `salary_max` (no validity filtering), then
`avg_salary` as the midpoint of the two already-rounded means. -/
structure LocationStat where
  location : Value
  job_count : ℕ
  avg_salary_min : ℤ
  avg_salary_max : ℤ
  avg : ℚ
deriving DecidableEq, Repr

/-- The numeric entries of a column slice: a pandas `mean` aggregation
skips missing values. -/
def numEntries (rows : List Row) (c : String) : List ℚ :=
  rows.filterMap (fun r =>
    match cellOf r c with
    | Value.vnum q => some q
    | _ => none)

/-- Aggregate one location group (its rows, in dataset order). -/
def mkLocationStat (k : Value) (rows : List Row) : LocationStat :=
  let rmin := roundHalfEven (ratMean (numEntries rows "salary_min"))
  let rmax := roundHalfEven (ratMean (numEntries rows "salary_max"))
  ⟨k, rows.length, rmin, rmax, ((rmin : ℚ) + (rmax : ℚ)) / 2⟩

/-- The `try:` body of `calculate_location_stats(jobs_df)`: groups by the
raw location, counts `job_id` and averages the salary bounds (`KeyError`
when one of the aggregated columns is absent), sorts by job count
descending. -/
def calculate_location_stats_body (jobs_df : DataFrame) :
    Except String (List LocationStat) :=
  if jobs_df.isEmpty || !jobs_df.hasCol "location" then Except.ok []
  else
    match colVals jobs_df "job_id", colVals jobs_df "salary_min",
        colVals jobs_df "salary_max" with
    | Except.error e, _, _ => Except.error e
    | _, Except.error e, _ => Except.error e
    | _, _, Except.error e => Except.error e
    | Except.ok _, Except.ok _, Except.ok _ =>
      let ks := groupKeys (jobs_df.rows.map (keyOf "location"))
      let stats := ks.map (fun k =>
        mkLocationStat k (jobs_df.rows.filter (fun r => keyOf "location" r == k)))
      Except.ok (stableSortBy (fun y x => decide (x.job_count < y.job_count)) stats)

/-- `calculate_location_stats`: faults are swallowed into an empty result. -/
def calculate_location_stats (jobs_df : DataFrame) : List LocationStat :=
  swallow [] (calculate_location_stats_body jobs_df)

/-! ## Posting trend aggregator (`get_posting_trends`, lines 192-240) -/

/-- `pd.to_datetime(value, errors='coerce', utc=True)` on one cell: a
datetime cell passes through, a string goes to the external pandas parser
`parse`, anything else coerces to `NaT`. -/
def toDatetime (parse : String → Option Int) (v : Value) : Option Int :=
  match v with
  | Value.vdate o => o
  | Value.vstr s => parse s
  | _ => none

/-- The parsed `posted_date` of a row. -/
def rowDate (parse : String → Option Int) (r : Row) : Option Int :=
  toDatetime parse (cellOf r "posted_date")

/-- The in-place column assignment
`jobs_df['posted_date'] = pd.to_datetime(jobs_df['posted_date'], ...)`:
every row's `posted_date` cell is replaced by its parsed value. The
assignment only happens after the emptiness / column checks pass. -/
def withParsedDates (parse : String → Option Int) (df : DataFrame) :
    DataFrame :=
  if df.isEmpty || !df.hasCol "posted_date" then df
  else ⟨df.cols, df.rows.map (fun r =>
    setAssoc r "posted_date" (Value.vdate (rowDate parse r)))⟩

/-- The filter mask `jobs_df['posted_date'] >= cutoff_date` on one row
(false on `NaT`). -/
def inWindow (parse : String → Option Int) (cutoff : Int) (r : Row) : Bool :=
  match rowDate parse r with
  | some t => decide (cutoff ≤ t)
  | none => false

/-- The `try:` body of `get_posting_trends(jobs_df, days)`, applied to the
already-converted frame: filter to `posted_date >= now - days`, count
postings per calendar day, and left-join the counts onto the complete
day range `[cutoff.date(), now.date()]`, missing days filled with 0. -/
def get_posting_trends_body (parse : String → Option Int) (now : Int)
    (jobs_df : DataFrame) (days : ℕ) : Except String (List (Int × ℕ)) :=
  if jobs_df.isEmpty || !jobs_df.hasCol "posted_date" then Except.ok []
  else
    let cutoff := now - (days : Int) * 86400
    let recent_jobs := jobs_df.rows.filter (inWindow parse cutoff)
    if recent_jobs.isEmpty then Except.ok []
    else
      let lo := dateOf cutoff
      let hi := dateOf now
      Except.ok ((List.range ((hi - lo).toNat + 1)).map (fun i =>
        (lo + (i : Int),
         (recent_jobs.filter (fun r =>
           (rowDate parse r).map dateOf == some (lo + (i : Int)))).length)))

/-- `get_posting_trends`: mutates the caller's `posted_date` column in
place, swallows faults into an empty result, and returns the daily series. -/
def get_posting_trends (parse : String → Option Int) (now : Int)
    (jobs_df : DataFrame) (days : ℕ) : DataFrame × List (Int × ℕ) :=
  let df2 := withParsedDates parse jobs_df
  (df2, swallow [] (get_posting_trends_body parse now df2 days))

/-! ## Experience distribution (`get_experience_distribution`, lines 243-269) -/

/-- The `try:` body of `get_experience_distribution(jobs_df)`: a plain
`value_counts()` of the experience column, no head limit. -/
def get_experience_distribution_body (jobs_df : DataFrame) :
    Except String (List (Value × ℕ)) :=
  if jobs_df.isEmpty || !jobs_df.hasCol "experience" then Except.ok []
  else Except.ok (sortCountDesc (countOccs
    ((jobs_df.rows.map (fun r => cellOf r "experience")).filter
      (fun v => !(v == Value.vnone)))))

/-- `get_experience_distribution`: faults are swallowed into an empty
result. -/
def get_experience_distribution (jobs_df : DataFrame) : List (Value × ℕ) :=
  swallow [] (get_experience_distribution_body jobs_df)

/-! ## Role distribution (`get_role_distribution`, lines 272-327) -/

/-- The in-place column assignment
`jobs_df['role'] = jobs_df['title'].apply(extract_role)`: every row gains
(or has replaced) a `role` cell, and the frame gains the `role` column;
it happens only after the emptiness / `title`-column checks pass. -/
def withRoleColumn (df : DataFrame) : DataFrame :=
  if df.isEmpty || !df.hasCol "title" then df
  else ⟨(if df.cols.contains "role" then df.cols else df.cols ++ ["role"]),
    df.rows.map (fun r =>
      setAssoc r "role" (Value.vstr (extract_role (pyStr (cellOf r "title")))))⟩

/-- The `try:` body of `get_role_distribution(jobs_df, top_n)`, applied to
the frame that already carries the derived `role` column:
`value_counts().head(top_n)` of that column. -/
def get_role_distribution_body (jobs_df : DataFrame) (top_n : ℕ) :
    Except String (List (Value × ℕ)) :=
  if jobs_df.isEmpty || !jobs_df.hasCol "title" then Except.ok []
  else Except.ok (valueCountsHead (jobs_df.rows.map (fun r => cellOf r "role")) top_n)

/-- `get_role_distribution`: mutates the caller's frame by adding the
`role` column, swallows faults into an empty result. -/
def get_role_distribution (jobs_df : DataFrame) (top_n : ℕ) :
    DataFrame × List (Value × ℕ) :=
  let df2 := withRoleColumn jobs_df
  (df2, swallow [] (get_role_distribution_body df2 top_n))

/-! ## Summary statistics (`calculate_summary_stats`, lines 330-377) -/

/-- `series.nunique()`: the number of distinct non-missing values. -/
def nuniqueCol (jobs_df : DataFrame) (c : String) : ℕ :=
  (firstOccs ((jobs_df.rows.map (fun r => cellOf r c)).filter
    (fun v => !(v == Value.vnone)))).length

/-- The `try:` body of `calculate_summary_stats(jobs_df)`, applied to the
frame whose `posted_date` column has already been converted in place: the
six-key dictionary, with `avg_salary` overwritten from the valid salary
pairs when there are any, and the two recency counters overwritten when
the date column exists. -/
def calculate_summary_stats_body (parse : String → Option Int) (now : Int)
    (jobs_df : DataFrame) : Except String (List (String × ℤ)) :=
  if jobs_df.isEmpty then Except.ok []
  else
    let stats0 : List (String × ℤ) :=
      [("total_jobs", (jobs_df.rows.length : ℤ)),
       ("total_companies", if jobs_df.hasCol "company" then (nuniqueCol jobs_df "company" : ℤ) else 0),
       ("total_locations", if jobs_df.hasCol "location" then (nuniqueCol jobs_df "location" : ℤ) else 0),
       ("avg_salary", 0),
       ("jobs_today", 0),
       ("jobs_this_week", 0)]
    let stats1 :=
      if jobs_df.hasCol "salary_min" && jobs_df.hasCol "salary_max" then
        let valid_salaries := jobs_df.rows.filter validSalary
        if valid_salaries.isEmpty then stats0
        else setAssoc stats0 "avg_salary"
          (intTrunc (ratMean (valid_salaries.map avg_salary)))
      else stats0
    let stats2 :=
      if jobs_df.hasCol "posted_date" then
        let today := dateOf now
        let week_ago := today - 7
        let jt := (jobs_df.rows.filter (fun r =>
          (rowDate parse r).map dateOf == some today)).length
        let jw := (jobs_df.rows.filter (fun r =>
          match (rowDate parse r).map dateOf with
          | some d => decide (week_ago ≤ d)
          | none => false)).length
        setAssoc (setAssoc stats1 "jobs_today" (jt : ℤ)) "jobs_this_week" (jw : ℤ)
      else stats1
    Except.ok stats2

/-- The in-place `posted_date` conversion of `calculate_summary_stats`
(line 365): same column assignment as the posting-trend aggregator, gated
by its own emptiness check and column test. -/
def summaryParsedDates (parse : String → Option Int) (df : DataFrame) :
    DataFrame :=
  withParsedDates parse df

/-- `calculate_summary_stats`: mutates the caller's `posted_date` column
in place when present, swallows faults into an empty dictionary. -/
def calculate_summary_stats (parse : String → Option Int) (now : Int)
    (jobs_df : DataFrame) : DataFrame × List (String × ℤ) :=
  let df2 := summaryParsedDates parse jobs_df
  (df2, swallow [] (calculate_summary_stats_body parse now df2))

/-! ## Concrete inputs used by the claim theorems and witnesses -/

/-- The salary-trend worked example of the spec: two valid rows in group
"A", one all-zero (invalid) row in group "B". -/
def exC3 : DataFrame :=
  ⟨["loc", "salary_min", "salary_max"],
   [[("loc", Value.vstr "A"), ("salary_min", Value.vnum 100), ("salary_max", Value.vnum 200)],
    [("loc", Value.vstr "A"), ("salary_min", Value.vnum 150), ("salary_max", Value.vnum 250)],
    [("loc", Value.vstr "B"), ("salary_min", Value.vnum 0), ("salary_max", Value.vnum 0)]]⟩

/-- A non-empty frame that has `salary_min` but no `salary_max` column. -/
def exC2 : DataFrame := ⟨["salary_min"], [[("salary_min", Value.vnum 100)]]⟩

/-- A non-empty frame without either salary column. -/
def exNoMin : DataFrame := ⟨["title"], [[("title", Value.vstr "x")]]⟩

/-- A second `salary_max`-less frame, used for the error-policy claim. -/
def exC7 : DataFrame := ⟨["salary_min"], [[("salary_min", Value.vnum 5)]]⟩

/-- A location normalizer mapping the variant spelling "Bengaluru" to the
canonical "Bangalore" and fixing everything else. -/
def exNorm : String → String := fun s => if s == "Bengaluru" then "Bangalore" else s

/-- The identity normalizer. -/
def idNorm : String → String := fun s => s

/-- One record whose raw location is the variant spelling. -/
def exC6 : DataFrame := ⟨["location"], [[("location", Value.vstr "Bengaluru")]]⟩

/-- A string parser that parses nothing (all date cells below are already
datetimes). -/
def noParse : String → Option Int := fun _ => none

/-- A string parser sending every string to the epoch, used to exhibit the
in-place `posted_date` conversion. -/
def parse0 : String → Option Int := fun _ => some 0

/-- The posting-trend worked example: `now` is noon of day 100 and the four
postings sit on relative days -10, -3, -1 and 0. -/
def exC4 : DataFrame :=
  ⟨["posted_date"],
   [[("posted_date", Value.vdate (some ((100 - 10) * 86400)))],
    [("posted_date", Value.vdate (some ((100 - 3) * 86400)))],
    [("posted_date", Value.vdate (some ((100 - 1) * 86400)))],
    [("posted_date", Value.vdate (some (100 * 86400)))]]⟩

/-- The `now` timestamp of the posting-trend example. -/
def nowC4 : Int := 100 * 86400 + 43200

/-- A one-row frame with only a title column. -/
def exC1 : DataFrame := ⟨["title"], [[("title", Value.vstr "Data Engineer")]]⟩

/-- A one-row frame whose `posted_date` is an unconverted string. -/
def exC1b : DataFrame := ⟨["posted_date"], [[("posted_date", Value.vstr "2024-01-01")]]⟩

/-- A non-empty frame whose only salary pair is invalid (both zero). -/
def exC9 : DataFrame :=
  ⟨["company", "salary_min", "salary_max"],
   [[("company", Value.vstr "X"), ("salary_min", Value.vnum 0), ("salary_max", Value.vnum 0)]]⟩

/-- A frame with columns but no rows. -/
def exEmpty : DataFrame := ⟨["company"], []⟩

/-- A one-row frame used for the unknown-location filter examples. -/
def exC10 : DataFrame :=
  ⟨["location", "title"],
   [[("location", Value.vstr "Delhi"), ("title", Value.vstr "Dev")]]⟩

/-! ## Helper lemmas -/

/-- Membership in a stable insertion. -/
theorem mem_insertStable {α : Type} (keep : α → α → Bool) (x a : α) :
    ∀ l : List α, a ∈ insertStable keep x l ↔ a = x ∨ a ∈ l := by
  intro l
  induction l with
  | nil => simp [insertStable]
  | cons y ys ih =>
    simp only [insertStable]
    by_cases h : keep y x = true
    · rw [if_pos h]
      simp only [List.mem_cons, ih]
      tauto
    · rw [if_neg h]
      simp [List.mem_cons]

/-- A stable sort only permutes; membership is preserved. -/
theorem mem_stableSortBy {α : Type} (keep : α → α → Bool) (a : α) :
    ∀ l : List α, a ∈ stableSortBy keep l → a ∈ l := by
  intro l
  induction l with
  | nil => simp [stableSortBy]
  | cons x xs ih =>
    intro h
    rcases (mem_insertStable keep x a (stableSortBy keep xs)).1 h with h' | h'
    · simp [h']
    · exact List.mem_cons_of_mem x (ih h')

/-- Deduplication only drops elements. -/
theorem mem_firstOccsAux {α : Type} [BEq α] (a : α) :
    ∀ (seen l : List α), a ∈ firstOccsAux seen l → a ∈ l := by
  intro seen l
  induction l generalizing seen with
  | nil => simp [firstOccsAux]
  | cons x xs ih =>
    intro h
    simp only [firstOccsAux] at h
    by_cases hx : seen.contains x = true
    · rw [if_pos hx] at h
      exact List.mem_cons_of_mem x (ih _ h)
    · rw [if_neg hx] at h
      rcases List.mem_cons.1 h with h' | h'
      · simp [h']
      · exact List.mem_cons_of_mem x (ih _ h')

/-- Deduplication only drops elements. -/
theorem mem_firstOccs {α : Type} [BEq α] (a : α) (l : List α)
    (h : a ∈ firstOccs l) : a ∈ l :=
  mem_firstOccsAux a [] l h

/-- Updating a key makes its lookup return the new value. -/
theorem lookup_setAssoc_self {α β : Type} [BEq α] [LawfulBEq α]
    (k : α) (v : β) : ∀ l : List (α × β), (setAssoc l k v).lookup k = some v := by
  intro l
  induction l with
  | nil => simp [setAssoc, List.lookup]
  | cons p rest ih =>
    obtain ⟨a, b⟩ := p
    by_cases h : a = k
    · subst h
      simp [setAssoc, List.lookup]
    · have h1 : (a == k) = false := beq_eq_false_iff_ne.2 h
      have h2 : (k == a) = false := beq_eq_false_iff_ne.2 (Ne.symm h)
      simp [setAssoc, List.lookup, h1, h2, ih]

/-- Updating a key leaves every other key's lookup unchanged. -/
theorem lookup_setAssoc_ne {α β : Type} [BEq α] [LawfulBEq α]
    (k k' : α) (v : β) (hne : k' ≠ k) :
    ∀ l : List (α × β), (setAssoc l k v).lookup k' = l.lookup k' := by
  intro l
  have hkk : (k' == k) = false := beq_eq_false_iff_ne.2 hne
  induction l with
  | nil => simp [setAssoc, List.lookup, hkk]
  | cons p rest ih =>
    obtain ⟨a, b⟩ := p
    by_cases h : a = k
    · subst h
      simp [setAssoc, List.lookup, hkk]
    · have h1 : (a == k) = false := beq_eq_false_iff_ne.2 h
      by_cases h2 : (k' == a) = true
      · simp [setAssoc, List.lookup, h1, h2]
      · have h2' : (k' == a) = false := by simpa using h2
        simp [setAssoc, List.lookup, h1, h2', ih]

/-- Lookup after one dictionary bump: the bumped key reads one more than
before (0 when new), every other key is untouched. -/
theorem lookup_bump {α : Type} [DecidableEq α] [BEq α] [LawfulBEq α] (k s : α) :
    ∀ l : List (α × ℕ), (bump l k).lookup s =
      if s = k then some ((l.lookup s).getD 0 + 1) else l.lookup s := by
  intro l
  induction l with
  | nil =>
    by_cases h : s = k
    · subst h
      simp [bump, List.lookup]
    · have h1 : (s == k) = false := beq_eq_false_iff_ne.2 h
      simp [bump, List.lookup, h1, h]
  | cons p rest ih =>
    obtain ⟨a, c⟩ := p
    by_cases hak : a = k
    · subst hak
      by_cases hsa : s = a
      · subst hsa
        simp [bump, List.lookup]
      · have h1 : (s == a) = false := beq_eq_false_iff_ne.2 hsa
        simp [bump, List.lookup, h1, hsa]
    · have h1 : (a == k) = false := beq_eq_false_iff_ne.2 hak
      by_cases hsa : s = a
      · subst hsa
        have h2 : (s == k) = false := beq_eq_false_iff_ne.2 hak
        simp [bump, List.lookup, h1, hak]
      · have h2 : (s == a) = false := beq_eq_false_iff_ne.2 hsa
        simp [bump, List.lookup, h1, h2, ih]

/-- Lookup in the dictionary folded over a token list: each key reads off
as its prior count plus its number of occurrences in the tokens. -/
theorem lookup_foldl_bump {α : Type} [DecidableEq α] [BEq α] [LawfulBEq α] (s : α) :
    ∀ (toks : List α) (acc : List (α × ℕ)),
      (toks.foldl bump acc).lookup s =
        if s ∈ toks then some ((acc.lookup s).getD 0 + toks.count s)
        else acc.lookup s := by
  intro toks
  induction toks with
  | nil => simp
  | cons t ts ih =>
    intro acc
    have hstep : (List.foldl bump acc (t :: ts)) = List.foldl bump (bump acc t) ts := rfl
    rw [hstep, ih]
    by_cases hst : s = t
    · subst hst
      have hcount : (s :: ts).count s = ts.count s + 1 := by
        simp [List.count_cons]
      rw [lookup_bump]
      by_cases hmem : s ∈ ts
      · simp only [hmem, if_true, hcount, List.mem_cons, true_or, Option.getD_some]
        congr 1
        omega
      · have hzero : ts.count s = 0 := List.count_eq_zero.2 hmem
        simp [hmem, hcount, hzero]
    · have hts : ¬ t = s := fun h => hst h.symm
      have hbeq : (s == t) = false := beq_eq_false_iff_ne.2 hst
      have hcount : (t :: ts).count s = ts.count s := by
        simp [List.count_cons, hbeq, hts]
      rw [lookup_bump]
      by_cases hmem : s ∈ ts
      · have : s ∈ t :: ts := List.mem_cons_of_mem t hmem
        simp [hmem, hst, hcount, this]
      · have hnmem : ¬ s ∈ t :: ts := by
          simp [List.mem_cons, hst, hmem]
        simp [hmem, hst, hnmem]

/-- Lookup in an occurrence count: exactly the occurrence count of the
element, present precisely when the element occurs. -/
theorem lookup_countOccs {α : Type} [DecidableEq α] [BEq α] [LawfulBEq α]
    (s : α) (l : List α) :
    (countOccs l).lookup s = if s ∈ l then some (l.count s) else none := by
  rw [countOccs, lookup_foldl_bump]
  simp [List.lookup]

/-- Stable insertion preserves descending order by the key `f`. -/
theorem pairwise_insertStable {α : Type} (f : α → ℕ) (x : α) :
    ∀ l : List α, List.Pairwise (fun a b => f b ≤ f a) l →
      List.Pairwise (fun a b => f b ≤ f a)
        (insertStable (fun y x => decide (f x < f y)) x l) := by
  intro l
  induction l with
  | nil => simp [insertStable]
  | cons y ys ih =>
    intro h
    simp only [insertStable]
    by_cases hk : (decide (f x < f y)) = true
    · rw [if_pos hk]
      have hxy : f x < f y := of_decide_eq_true hk
      rcases List.pairwise_cons.1 h with ⟨hy, hys⟩
      refine List.pairwise_cons.2 ⟨?_, ih hys⟩
      intro z hz
      rcases (mem_insertStable _ x z ys).1 hz with hz' | hz'
      · exact hz' ▸ le_of_lt hxy
      · exact hy z hz'
    · rw [if_neg hk]
      have hyx : f y ≤ f x := by simpa using hk
      rcases List.pairwise_cons.1 h with ⟨hy, _⟩
      refine List.pairwise_cons.2 ⟨?_, h⟩
      intro z hz
      rcases List.mem_cons.1 hz with hz' | hz'
      · exact hz' ▸ hyx
      · exact le_trans (hy z hz') hyx

/-- The descending count sort is sorted: counts never increase along it. -/
theorem pairwise_sortCountDesc {α : Type} :
    ∀ l : List (α × ℕ), List.Pairwise (fun a b => b.2 ≤ a.2) (sortCountDesc l) := by
  intro l
  induction l with
  | nil => simp [sortCountDesc, stableSortBy]
  | cons x xs ih =>
    have hstep : sortCountDesc (x :: xs) =
        insertStable (fun y x => decide (x.2 < y.2)) x (sortCountDesc xs) := rfl
    rw [hstep]
    exact pairwise_insertStable (fun p => p.2) x _ ih

/-- The in-place date conversion leaves the column list unchanged. -/
theorem withParsedDates_cols (parse : String → Option Int) (df : DataFrame) :
    (withParsedDates parse df).cols = df.cols := by
  unfold withParsedDates
  by_cases h : (df.isEmpty || !df.hasCol "posted_date") = true
  · rw [if_pos h]
  · rw [if_neg h]

/-- The in-place date conversion does not change emptiness. -/
theorem withParsedDates_isEmpty (parse : String → Option Int) (df : DataFrame) :
    (withParsedDates parse df).isEmpty = df.isEmpty := by
  obtain ⟨cols, rows⟩ := df
  unfold withParsedDates
  by_cases h : ((DataFrame.mk cols rows).isEmpty
      || !(DataFrame.mk cols rows).hasCol "posted_date") = true
  · rw [if_pos h]
  · rw [if_neg h]
    cases rows <;> simp [DataFrame.isEmpty]

/-- Salary validity of a row is unaffected by the `posted_date` update. -/
theorem validSalary_setPostedDate (r : Row) (v : Value) :
    validSalary (setAssoc r "posted_date" v) = validSalary r := by
  unfold validSalary cellOf
  rw [lookup_setAssoc_ne "posted_date" "salary_min" v (by decide) r,
    lookup_setAssoc_ne "posted_date" "salary_max" v (by decide) r]

/-- Re-reading the parsed date of a row after the in-place conversion
returns the converted value. -/
theorem rowDate_setParsed (parse : String → Option Int) (r : Row) :
    rowDate parse (setAssoc r "posted_date" (Value.vdate (rowDate parse r)))
      = rowDate parse r := by
  unfold rowDate cellOf
  rw [lookup_setAssoc_self]
  rfl

/-! ## Claim theorems -/

/-- C1: the no-mutation claim fails on the code: `get_role_distribution`
adds a `role` column to the caller's frame, while `get_posting_trends` and
`calculate_summary_stats` overwrite the caller's `posted_date` values with
their parsed form. Each conjunct evaluates the code at a concrete input
and shows the caller's table after the call differs from before. -/
theorem C1_mutation_bug :
    (get_role_distribution exC1 10).1 ≠ exC1
    ∧ (get_posting_trends parse0 nowC4 exC1b 30).1 ≠ exC1b
    ∧ (calculate_summary_stats parse0 nowC4 exC1b).1 ≠ exC1b :=
  ⟨by decide, by decide, by decide⟩

/-- C2 counterexample: on a non-empty frame that has `salary_min` but no
`salary_max` column, `calculate_salary_trends` raises the wrapped
`KeyError` instead of returning the empty result the claim promises. -/
theorem C2_counterexample :
    calculate_salary_trends exC2 "location" =
      Except.error ⟨"KeyError: salary_max"⟩ := rfl

/-- C2 amended: a missing `salary_min` column (or an empty frame) yields
the empty result without error; but when only `salary_max` is missing on a
non-empty frame the aggregator raises the wrapped `KeyError: salary_max`
(the precondition check covers `salary_min` alone). -/
theorem C2_salary_missing_column (jobs_df : DataFrame) (group_by : String) :
    (jobs_df.hasCol "salary_min" = false →
      calculate_salary_trends jobs_df group_by = Except.ok [])
    ∧ (jobs_df.isEmpty = false → jobs_df.hasCol "salary_min" = true →
        jobs_df.hasCol "salary_max" = false →
        calculate_salary_trends jobs_df group_by =
          Except.error ⟨"KeyError: salary_max"⟩) := by
  constructor
  · intro h
    simp [calculate_salary_trends, calculate_salary_trends_body, h, reraise]
  · intro h1 h2 h3
    simp [calculate_salary_trends, calculate_salary_trends_body, h1, h2, h3,
      colVals, reraise]

/-- C2 witness: the amended claim evaluated at two concrete frames, one
without `salary_min`, one with `salary_min` but without `salary_max`. -/
theorem C2_witness :
    (exNoMin.hasCol "salary_min" = false
      ∧ calculate_salary_trends exNoMin "loc" = Except.ok [])
    ∧ (exC2.isEmpty = false ∧ exC2.hasCol "salary_min" = true
      ∧ exC2.hasCol "salary_max" = false
      ∧ calculate_salary_trends exC2 "loc" =
          Except.error ⟨"KeyError: salary_max"⟩) :=
  ⟨⟨by decide, (C2_salary_missing_column exNoMin "loc").1 (by decide)⟩,
   ⟨by decide, by decide, by decide,
    (C2_salary_missing_column exC2 "loc").2 (by decide) (by decide) (by decide)⟩⟩

/-- C8: the role classifier lower-cases the title and evaluates the fixed
ordered substring rule list with first match winning and fallback "Other";
"Senior Data Scientist (Python)" resolves to the earliest-listed matching
rule "Data Scientist", and "Office Coordinator" matches no rule. -/
theorem C8_role_classifier :
    (∀ title : String, extract_role title = applyRules roleRules (pyLower title))
    ∧ extract_role "Senior Data Scientist (Python)" = "Data Scientist"
    ∧ extract_role "Office Coordinator" = "Other" := by
  refine ⟨fun title => ?_, by decide, by decide⟩
  simp only [extract_role, applyRules, roleRules, List.any_cons, List.any_nil,
    Bool.or_false]

/-- C10: filtering a non-empty frame by a non-empty, non-"All" location
that matches no record returns the freshly constructed empty frame, whose
column list is empty — the input's schema is not preserved. -/
theorem C10_filter_no_match_schema (normalize : String → String)
    (jobs_df : DataFrame) (location : String)
    (h1 : (location == "") = false) (h2 : (location == "All") = false)
    (_h3 : jobs_df.isEmpty = false)
    (h4 : ∀ r ∈ jobs_df.rows, locMatches normalize (pyLower location) r = false) :
    filter_jobs_by_location normalize jobs_df location = ⟨[], []⟩
    ∧ (filter_jobs_by_location normalize jobs_df location).cols = [] := by
  have hfil : jobs_df.rows.filter (locMatches normalize (pyLower location)) = [] := by
    rw [List.filter_eq_nil_iff]
    intro a ha
    simp [h4 a ha]
  have hres : filter_jobs_by_location normalize jobs_df location = ⟨[], []⟩ := by
    simp [filter_jobs_by_location, h1, h2, hfil]
  exact ⟨hres, by rw [hres]⟩

/-- C10 witness: the identity normalizer, a one-row Delhi frame, and the
unknown request "Mumbai". -/
theorem C10_witness :
    filter_jobs_by_location idNorm exC10 "Mumbai" = ⟨[], []⟩
    ∧ (filter_jobs_by_location idNorm exC10 "Mumbai").cols = [] :=
  C10_filter_no_match_schema idNorm exC10 "Mumbai" (by decide) (by decide)
    (by decide) (by decide)

/-- C6 counterexample: with a normalizer sending "Bengaluru" to
"Bangalore", requesting "Bengaluru" on a frame whose one record's location
is "Bengaluru" returns the empty frame, while the spec's description (the
request itself normalized before comparison) selects that record — the
claim as stated is false of the code. -/
theorem C6_counterexample :
    filter_jobs_by_location exNorm exC6 "Bengaluru" = ⟨[], []⟩
    ∧ filter_jobs_by_location_specVariant exNorm exC6 "Bengaluru" =
        ⟨["location"], [[("location", Value.vstr "Bengaluru")]]⟩ :=
  ⟨by decide, by decide⟩

/-- C6 amended: for a non-empty, non-"All" request, the filter keeps — in
original row order — exactly the records whose normalized, lower-cased
location equals the request merely lower-cased (the request is NOT itself
passed through the normalizer) or equals the literal "remote"; a request
matching no record yields the empty frame. -/
theorem C6_filter_amended (normalize : String → String) (jobs_df : DataFrame)
    (location : String)
    (h1 : (location == "") = false) (h2 : (location == "All") = false) :
    (filter_jobs_by_location normalize jobs_df location).rows =
      jobs_df.rows.filter (fun r =>
        pyLower (normalize (locString r)) == pyLower location
        || pyLower (normalize (locString r)) == "remote")
    ∧ ((∀ r ∈ jobs_df.rows,
          (pyLower (normalize (locString r)) == pyLower location
            || pyLower (normalize (locString r)) == "remote") = false) →
        filter_jobs_by_location normalize jobs_df location = ⟨[], []⟩) := by
  by_cases hf : jobs_df.rows.filter (locMatches normalize (pyLower location)) = []
  · have hres : filter_jobs_by_location normalize jobs_df location = ⟨[], []⟩ := by
      simp [filter_jobs_by_location, h1, h2, hf]
    constructor
    · rw [hres]
      exact hf.symm
    · intro _
      exact hres
  · have hres : filter_jobs_by_location normalize jobs_df location =
        ⟨jobs_df.cols, jobs_df.rows.filter (locMatches normalize (pyLower location))⟩ := by
      simp [filter_jobs_by_location, h1, h2, hf]
    constructor
    · rw [hres]
      exact rfl
    · intro hall
      exfalso
      apply hf
      rw [List.filter_eq_nil_iff]
      intro a ha
      simp [hall a ha, locMatches]

/-- C6 witness: the amended description evaluated on the counterexample
normalizer and frame. -/
theorem C6_witness :
    (filter_jobs_by_location exNorm exC6 "Bengaluru").rows =
      exC6.rows.filter (fun r =>
        pyLower (exNorm (locString r)) == pyLower "Bengaluru"
        || pyLower (exNorm (locString r)) == "remote") :=
  (C6_filter_amended exNorm exC6 "Bengaluru" (by decide) (by decide)).1

/-- C7: the error-policy asymmetry. `reraise` (the salary aggregator's
handler) turns any internal fault into the typed `CustomException`, while
`swallow` (every other aggregator's handler) turns any fault into the
empty result; each aggregator is definitionally its handler applied to its
body, and the salary aggregator provably surfaces a concrete fault. -/
theorem C7_error_policy :
    (∀ e : String, reraise (α := List SalaryStat) (Except.error e) =
      Except.error ⟨e⟩)
    ∧ (∀ (α : Type) (d : α) (e : String), swallow d (Except.error e) = d)
    ∧ (∀ (jobs_df : DataFrame) (group_by : String),
        calculate_salary_trends jobs_df group_by =
          reraise (calculate_salary_trends_body jobs_df group_by))
    ∧ (∀ (jobs_df : DataFrame) (top_n : ℕ),
        get_top_skills jobs_df top_n =
          swallow [] (get_top_skills_body jobs_df top_n))
    ∧ (∀ (jobs_df : DataFrame) (top_n : ℕ),
        get_top_companies jobs_df top_n =
          swallow [] (get_top_companies_body jobs_df top_n))
    ∧ (∀ jobs_df : DataFrame,
        calculate_location_stats jobs_df =
          swallow [] (calculate_location_stats_body jobs_df))
    ∧ (∀ (parse : String → Option Int) (now : Int) (jobs_df : DataFrame)
        (days : ℕ),
        (get_posting_trends parse now jobs_df days).2 =
          swallow [] (get_posting_trends_body parse now
            (withParsedDates parse jobs_df) days))
    ∧ (∀ jobs_df : DataFrame,
        get_experience_distribution jobs_df =
          swallow [] (get_experience_distribution_body jobs_df))
    ∧ (∀ (jobs_df : DataFrame) (top_n : ℕ),
        (get_role_distribution jobs_df top_n).2 =
          swallow [] (get_role_distribution_body (withRoleColumn jobs_df) top_n))
    ∧ (∀ (parse : String → Option Int) (now : Int) (jobs_df : DataFrame),
        (calculate_summary_stats parse now jobs_df).2 =
          swallow [] (calculate_summary_stats_body parse now
            (summaryParsedDates parse jobs_df)))
    ∧ calculate_salary_trends exC7 "title" = Except.error ⟨"KeyError: salary_max"⟩ :=
  ⟨fun _ => rfl, fun _ _ _ => rfl, fun _ _ => rfl, fun _ _ => rfl,
   fun _ _ => rfl, fun _ => rfl, fun _ _ _ _ => rfl, fun _ => rfl,
   fun _ _ => rfl, fun _ _ _ => rfl, rfl⟩

/-- C9: summary statistics on an empty frame return the empty mapping with
no keys; on any non-empty frame in which no record has a valid salary pair
(both bounds strictly positive), the key `avg_salary` is present with
value 0. -/
theorem C9_summary_stats (parse : String → Option Int) (now : Int)
    (jobs_df : DataFrame) :
    (jobs_df.isEmpty = true → (calculate_summary_stats parse now jobs_df).2 = [])
    ∧ (jobs_df.isEmpty = false →
        (∀ r ∈ jobs_df.rows, validSalary r = false) →
        ((calculate_summary_stats parse now jobs_df).2).lookup "avg_salary" =
          some 0) := by
  constructor
  · intro h
    have hdf : withParsedDates parse jobs_df = jobs_df := by
      unfold withParsedDates
      rw [if_pos (by simp [h])]
    show swallow []
      (calculate_summary_stats_body parse now (summaryParsedDates parse jobs_df)) = []
    unfold summaryParsedDates
    rw [hdf]
    unfold calculate_summary_stats_body
    rw [if_pos h]
    rfl
  · intro hne hvalid
    have hvalid2 : ∀ r' ∈ (withParsedDates parse jobs_df).rows,
        validSalary r' = false := by
      intro r' hr'
      unfold withParsedDates at hr'
      by_cases h : (jobs_df.isEmpty || !jobs_df.hasCol "posted_date") = true
      · rw [if_pos h] at hr'
        exact hvalid r' hr'
      · rw [if_neg h] at hr'
        simp only [List.mem_map] at hr'
        obtain ⟨r, hr, hmut⟩ := hr'
        rw [← hmut, validSalary_setPostedDate]
        exact hvalid r hr
    have hEmpty2 : (withParsedDates parse jobs_df).isEmpty = false := by
      rw [withParsedDates_isEmpty]
      exact hne
    have hfil : (withParsedDates parse jobs_df).rows.filter validSalary = [] := by
      rw [List.filter_eq_nil_iff]
      intro a ha
      simp [hvalid2 a ha]
    show (swallow []
      (calculate_summary_stats_body parse now (summaryParsedDates parse jobs_df))).lookup
        "avg_salary" = some 0
    unfold summaryParsedDates
    unfold calculate_summary_stats_body
    rw [if_neg (by simp [hEmpty2])]
    dsimp only [swallow]
    by_cases hsal : ((withParsedDates parse jobs_df).hasCol "salary_min"
        && (withParsedDates parse jobs_df).hasCol "salary_max") = true
    · rw [if_pos hsal, hfil]
      by_cases hpd : (withParsedDates parse jobs_df).hasCol "posted_date" = true
      · rw [if_pos hpd]
        rw [lookup_setAssoc_ne "jobs_this_week" "avg_salary" _ (by decide),
          lookup_setAssoc_ne "jobs_today" "avg_salary" _ (by decide)]
        rw [if_pos (show (([] : List Row).isEmpty = true) from rfl)]
        rfl
      · rw [if_neg hpd]
        rw [if_pos (show (([] : List Row).isEmpty = true) from rfl)]
        rfl
    · rw [if_neg hsal]
      by_cases hpd : (withParsedDates parse jobs_df).hasCol "posted_date" = true
      · rw [if_pos hpd]
        rw [lookup_setAssoc_ne "jobs_this_week" "avg_salary" _ (by decide),
          lookup_setAssoc_ne "jobs_today" "avg_salary" _ (by decide)]
        rfl
      · rw [if_neg hpd]
        rfl

/-- C9 witness: the empty part at a rows-less frame, the no-valid-pair
part at a one-row frame whose salary bounds are both zero. -/
theorem C9_witness :
    (calculate_summary_stats noParse 0 exEmpty).2 = []
    ∧ ((calculate_summary_stats noParse 0 exC9).2).lookup "avg_salary" = some 0 :=
  ⟨(C9_summary_stats noParse 0 exEmpty).1 (by decide),
   (C9_summary_stats noParse 0 exC9).2 (by decide) (by decide)⟩

/-- C3: salary trends keep only valid salary pairs, group them by the
grouping key, and report each group's mean as the rounded mean of
per-record midpoints. On the spec's worked example grouped by `loc` the
result is exactly one group "A" with mean 175 and count 2 (and no group
"B"); in general every reported row's mean is the rounded mean of the
midpoints of the valid rows carrying its key, its count is the number of
those rows, and that group is non-empty. -/
theorem C3_salary_trends :
    calculate_salary_trends exC3 "loc" =
      Except.ok [⟨Value.vstr "A", 175, 175, 150, 200, 2⟩]
    ∧ ∀ (jobs_df : DataFrame) (group_by : String) (stats : List SalaryStat)
        (s : SalaryStat),
        calculate_salary_trends jobs_df group_by = Except.ok stats →
        s ∈ stats →
        s.mean = roundHalfEven (ratMean
          (midpointsOfRows (jobs_df.rows.filter validSalary) group_by s.key))
        ∧ s.count =
            (midpointsOfRows (jobs_df.rows.filter validSalary) group_by s.key).length
        ∧ midpointsOfRows (jobs_df.rows.filter validSalary) group_by s.key ≠ [] := by
  constructor
  · with_unfolding_all rfl
  · intro df gb stats s hok hmem
    have hbody : calculate_salary_trends_body df gb = Except.ok stats := by
      unfold calculate_salary_trends reraise at hok
      revert hok
      cases hcase : calculate_salary_trends_body df gb with
      | ok v =>
        intro hok
        simp only [Except.ok.injEq] at hok
        rw [hok]
      | error e =>
        intro hok
        cases hok
    clear hok
    unfold calculate_salary_trends_body at hbody
    by_cases h1 : (df.isEmpty || !df.hasCol "salary_min") = true
    · rw [if_pos h1] at hbody
      simp only [Except.ok.injEq] at hbody
      rw [← hbody] at hmem
      cases hmem
    · rw [if_neg h1] at hbody
      revert hbody
      cases hcv : colVals df "salary_max" with
      | error e =>
        intro hbody
        cases hbody
      | ok vals =>
        intro hbody
        by_cases h2 : (df.rows.filter validSalary).isEmpty = true
        · rw [if_pos h2] at hbody
          simp only [Except.ok.injEq] at hbody
          rw [← hbody] at hmem
          cases hmem
        · rw [if_neg h2] at hbody
          revert hbody
          cases hgb : colVals ⟨df.cols, df.rows.filter validSalary⟩ gb with
          | error e =>
            intro hbody
            cases hbody
          | ok vals2 =>
            intro hbody
            simp only [Except.ok.injEq] at hbody
            rw [← hbody] at hmem
            have hmem2 := mem_stableSortBy _ _ _ hmem
            rcases List.mem_map.1 hmem2 with ⟨k, hk, hs⟩
            have hkmem : k ∈ (df.rows.filter validSalary).map (keyOf gb) := by
              have h3 := mem_stableSortBy _ _ _ hk
              have h4 := List.mem_filter.1 h3
              exact mem_firstOccs _ _ h4.1
            rcases List.mem_map.1 hkmem with ⟨r, hr, hkr⟩
            have hrfil : r ∈ (df.rows.filter validSalary).filter
                (fun r => keyOf gb r == k) := by
              refine List.mem_filter.2 ⟨hr, ?_⟩
              simp [hkr]
            have hne : midpointsOfRows (df.rows.filter validSalary) gb k ≠ [] := by
              unfold midpointsOfRows
              intro hcontra
              rw [List.map_eq_nil_iff] at hcontra
              rw [hcontra] at hrfil
              cases hrfil
            refine ⟨?_, ?_, ?_⟩
            · rw [← hs]
              exact rfl
            · rw [← hs]
              exact rfl
            · rw [← hs]
              exact hne

/-- C3 witness: the general midpoint-mean property applied at the worked
example's only output row. -/
theorem C3_witness :
    (⟨Value.vstr "A", 175, 175, 150, 200, 2⟩ : SalaryStat).mean =
      roundHalfEven (ratMean (midpointsOfRows (exC3.rows.filter validSalary)
        "loc" (⟨Value.vstr "A", 175, 175, 150, 200, 2⟩ : SalaryStat).key))
    ∧ (⟨Value.vstr "A", 175, 175, 150, 200, 2⟩ : SalaryStat).count =
        (midpointsOfRows (exC3.rows.filter validSalary) "loc"
          (⟨Value.vstr "A", 175, 175, 150, 200, 2⟩ : SalaryStat).key).length
    ∧ midpointsOfRows (exC3.rows.filter validSalary) "loc"
        (⟨Value.vstr "A", 175, 175, 150, 200, 2⟩ : SalaryStat).key ≠ [] :=
  C3_salary_trends.2 exC3 "loc" [⟨Value.vstr "A", 175, 175, 150, 200, 2⟩]
    ⟨Value.vstr "A", 175, 175, 150, 200, 2⟩ C3_salary_trends.1
    (List.mem_singleton.mpr rfl)

/-- Binding a singleton-producing function does not change a list's
length (the shape of an elementwise-coerced list). -/
theorem length_bind_pure {α β : Type} (f : α → β) :
    ∀ l : List α, (l.flatMap (fun a => pure (f a))).length = l.length := by
  intro l
  induction l with
  | nil => rfl
  | cons x xs ih =>
    show (List.cons (f x) [] ++ xs.flatMap (fun a => pure (f a))).length = xs.length + 1
    rw [List.length_append, ih]
    simp [Nat.add_comm]

/-- C4: when at least one record's parsed `posted_date` lies on or after
`cutoff = now - days` (and the column exists), the posting-trend series is
the complete gap-free daily range from `cutoff`'s calendar day through
`now`'s calendar day: exactly `days + 1` entries, the i-th carrying day
`cutoff.date + i` and the number of in-window postings on that day (0 when
none). -/
theorem C4_posting_trends (parse : String → Option Int) (now : Int)
    (jobs_df : DataFrame) (days : ℕ)
    (hcol : jobs_df.hasCol "posted_date" = true)
    (hin : ∃ r ∈ jobs_df.rows, ∃ t, rowDate parse r = some t
            ∧ now - (days : Int) * 86400 ≤ t) :
    (get_posting_trends parse now jobs_df days).2 =
      (List.range (days + 1)).map (fun i =>
        (dateOf now - (days : Int) + (i : Int),
         (jobs_df.rows.filter (fun r =>
            match rowDate parse r with
            | some t => decide (now - (days : Int) * 86400 ≤ t)
                && (dateOf t == dateOf now - (days : Int) + (i : Int))
            | none => false)).length))
    ∧ ((get_posting_trends parse now jobs_df days).2).length = days + 1 := by
  obtain ⟨r0, hr0, t0, ht0, hle0⟩ := hin
  have hrowsne : jobs_df.rows ≠ [] := List.ne_nil_of_mem hr0
  have hcolsne : jobs_df.cols ≠ [] := by
    intro hc
    unfold DataFrame.hasCol at hcol
    rw [hc] at hcol
    simp at hcol
  have hEmpty : jobs_df.isEmpty = false := by
    unfold DataFrame.isEmpty
    cases hr : jobs_df.rows with
    | nil => exact absurd hr hrowsne
    | cons a l =>
      cases hc : jobs_df.cols with
      | nil => exact absurd hc hcolsne
      | cons b m => rfl
  have hcond : (jobs_df.isEmpty || !jobs_df.hasCol "posted_date") = false := by
    rw [hEmpty, hcol]
    rfl
  have hdf2 : withParsedDates parse jobs_df =
      ⟨jobs_df.cols, jobs_df.rows.map (fun r =>
        setAssoc r "posted_date" (Value.vdate (rowDate parse r)))⟩ := by
    unfold withParsedDates
    rw [hcond]
    rfl
  have hc2 : ((DataFrame.mk jobs_df.cols (jobs_df.rows.map (fun r =>
        setAssoc r "posted_date" (Value.vdate (rowDate parse r))))).isEmpty
      || !(DataFrame.mk jobs_df.cols (jobs_df.rows.map (fun r =>
        setAssoc r "posted_date" (Value.vdate (rowDate parse r))))).hasCol
          "posted_date") = false := by
    unfold DataFrame.isEmpty DataFrame.hasCol
    cases hr : jobs_df.rows with
    | nil => exact absurd hr hrowsne
    | cons a l =>
      unfold DataFrame.hasCol at hcol
      simp [hcolsne]
      simpa using hcol
  have hwin : inWindow parse (now - (days : Int) * 86400)
      (setAssoc r0 "posted_date" (Value.vdate (rowDate parse r0))) = true := by
    unfold inWindow
    rw [rowDate_setParsed, ht0]
    simp [hle0]
  have hrecmem : setAssoc r0 "posted_date" (Value.vdate (rowDate parse r0)) ∈
      (jobs_df.rows.map (fun r =>
        setAssoc r "posted_date" (Value.vdate (rowDate parse r)))).filter
        (inWindow parse (now - (days : Int) * 86400)) := by
    refine List.mem_filter.2 ⟨?_, hwin⟩
    exact List.mem_map_of_mem _ hr0
  have hrecne : ((jobs_df.rows.map (fun r =>
      setAssoc r "posted_date" (Value.vdate (rowDate parse r)))).filter
      (inWindow parse (now - (days : Int) * 86400))).isEmpty = false := by
    cases hq : (jobs_df.rows.map (fun r =>
        setAssoc r "posted_date" (Value.vdate (rowDate parse r)))).filter
        (inWindow parse (now - (days : Int) * 86400)) with
    | nil =>
      rw [hq] at hrecmem
      cases hrecmem
    | cons x xs => rfl
  have hlo : dateOf (now - (days : Int) * 86400) = dateOf now - (days : Int) := by
    unfold dateOf
    omega
  have hlen : ((dateOf now - (dateOf now - (days : Int))).toNat + 1) = days + 1 := by
    omega
  have hmain : (get_posting_trends parse now jobs_df days).2 =
      (List.range (days + 1)).map (fun i =>
        (dateOf now - (days : Int) + (i : Int),
         (jobs_df.rows.filter (fun r =>
            match rowDate parse r with
            | some t => decide (now - (days : Int) * 86400 ≤ t)
                && (dateOf t == dateOf now - (days : Int) + (i : Int))
            | none => false)).length)) := by
    show swallow [] (get_posting_trends_body parse now
      (withParsedDates parse jobs_df) days) = _
    rw [hdf2]
    unfold get_posting_trends_body
    rw [if_neg (by simp [hc2])]
    dsimp only
    rw [if_neg (by simp [hrecne])]
    dsimp only [swallow]
    simp only [hlo, hlen]
    apply List.map_congr_left
    intro i hi
    refine congrArg (Prod.mk _) ?_
    rw [List.filter_filter, List.filter_map, List.length_map]
    congr 1
    apply List.filter_congr
    intro r hr
    simp only [Function.comp]
    unfold inWindow
    rw [rowDate_setParsed]
    cases hrd : rowDate parse r with
    | none => rfl
    | some t =>
      rw [Bool.and_comm]
      rfl
  refine ⟨hmain, ?_⟩
  rw [hmain, List.length_map]
  show ((List.range (days + 1)).flatMap (fun a => pure ((a : ℕ) : Int))).length = days + 1
  rw [length_bind_pure, List.length_range]

/-- C4 witness: the spec's worked example — `now` at day 100, a 7-day
window, postings on relative days -10, -3, -1 and 0 — has exactly 8
entries (via the theorem), and evaluates to counts 1 on days -3, -1, 0 and
0 elsewhere, day -10 contributing nothing. -/
theorem C4_witness :
    ((get_posting_trends noParse (100 * 86400) exC4 7).2).length = 7 + 1
    ∧ (get_posting_trends noParse (100 * 86400) exC4 7).2 =
        [(93, 0), (94, 0), (95, 0), (96, 0), (97, 1), (98, 0), (99, 1), (100, 1)] :=
  ⟨(C4_posting_trends noParse (100 * 86400) exC4 7 (by decide)
      ⟨[("posted_date", Value.vdate (some ((100 - 3) * 86400)))],
       by decide, (100 - 3) * 86400, by decide, by decide⟩).2,
   by decide⟩
